import Mathlib

/-!
Verification of the Mocha study tracker's session/timer and
progress-aggregation core.

The JavaScript source is shallowly embedded: JS numbers are modelled as
rationals (`ℚ`), timestamps (`Date.getTime()` values, i.e. milliseconds
since the epoch) as integers (`ℤ`), date-only ISO strings as epoch day
numbers (`ℤ`, order-isomorphic to the lexicographic order on well-formed
`YYYY-MM-DD` strings), `null` as `Option.none`, and plain JS objects used
as string-keyed maps as insertion-ordered association lists.
-/

namespace Mocha

/-- Model of JS `Math.round`: round half toward positive infinity. -/
def jsRound (q : ℚ) : ℤ := ⌊q + 1/2⌋

/-- Constant `TIME.secondsPerHour` from `src/utils/constants.js`. -/
def secondsPerHour : ℚ := 3600

/-- Constant `POINTS_PER_HOUR` from `src/utils/points.js`. -/
def POINTS_PER_HOUR : ℚ := 5

/-- Constant `TASK_COMPLETE_BONUS` from `src/utils/points.js`. -/
def TASK_COMPLETE_BONUS : ℚ := 5

/-- Constant map `DIFFICULTY_BONUS` from `src/utils/points.js`;
`none` models an absent property (`DIFFICULTY_BONUS[d]` undefined). -/
def DIFFICULTY_BONUS (d : String) : Option ℚ :=
  if d = "easy" then some 5
  else if d = "medium" then some 10
  else if d = "hard" then some 15
  else none

/-- Constant `WEEKLY_GOAL_BONUS` from `src/utils/points.js`. -/
def WEEKLY_GOAL_BONUS : ℚ := 50

/-- Constant `PERFECT_WEEK_BONUS` from `src/utils/points.js`. -/
def PERFECT_WEEK_BONUS : ℚ := 100

/-- Pomodoro configuration carried by an active session
(`PomodoroSettings` typedef in the data models). -/
structure PomodoroSettings where
  workMinutes : ℚ
  breakMinutes : ℚ
  longBreakMinutes : ℚ
  longBreakInterval : ℚ
deriving Repr, DecidableEq

/-- The `ActiveSession` record from the data models: the single mutable
in-progress session.  `startTime`/`pausedAt` are epoch milliseconds,
`totalPausedDuration` is in seconds. -/
structure ActiveSession where
  goalId : String
  taskId : Option String
  startTime : ℤ
  pausedAt : Option ℤ
  totalPausedDuration : ℚ
  mode : String
  pomodoroSettings : Option PomodoroSettings
  pomodorosCompleted : ℤ
deriving Repr, DecidableEq

/-- Factory `createActiveSession` from the data models, with the implicit
clock (`new Date().toISOString()`) passed explicitly as `now`. -/
def createActiveSession (goalId : String) (taskId : Option String)
    (mode : String) (pomodoroSettings : Option PomodoroSettings)
    (now : ℤ) : ActiveSession :=
  { goalId := goalId
    taskId := taskId
    startTime := now
    pausedAt := none
    totalPausedDuration := 0
    mode := mode
    pomodoroSettings := pomodoroSettings
    pomodorosCompleted := 0 }

namespace Calculations

/-- Function `calculateElapsedTime` from the calculation utilities
(`src/unnamed/part_000`, lines 492-508), with `Date.now()` passed
explicitly as `now`.  The `if (!activeSession) return 0` null-guard is
outside the model: the record is passed directly. -/
def calculateElapsedTime (activeSession : ActiveSession) (now : ℤ) : ℤ :=
  let startTime := activeSession.startTime
  let endTime := match activeSession.pausedAt with
    | some p => p
    | none => now
  let totalElapsed : ℚ := (endTime - startTime : ℤ) / 1000
  let activeTime : ℚ := totalElapsed - activeSession.totalPausedDuration
  max 0 ⌊activeTime⌋

end Calculations

namespace Background

/-- Function `calculateElapsedTime` from the background service worker
(`src/unnamed/part_004`, lines 226-248), with `Date.now()` passed
explicitly as `now`.  The `!activeSession || !activeSession.startTime`
null-guard is outside the model: the record is passed directly, and
`totalPausedDuration || 0` is the field itself since the field is total. -/
def calculateElapsedTime (activeSession : ActiveSession) (now : ℤ) : ℤ :=
  let startTime := activeSession.startTime
  let elapsed : ℚ := (now - startTime : ℤ) / 1000
  let elapsed : ℚ := elapsed - activeSession.totalPausedDuration
  let elapsed : ℚ := match activeSession.pausedAt with
    | some pauseStart => elapsed - ((now - pauseStart : ℤ) : ℚ) / 1000
    | none => elapsed
  max 0 ⌊elapsed⌋

end Background

/-- Function `calculateSessionPoints` from `src/utils/points.js`
(lines 95-112).  `taskDifficulty = none` models `null`; the JS guard
`taskDifficulty && DIFFICULTY_BONUS[taskDifficulty]` is the match on a
present, non-zero bonus (all bonuses in the table are non-zero). -/
def calculateSessionPoints (durationSeconds : ℚ) (taskCompleted : Bool)
    (taskDifficulty : Option String) : ℤ :=
  let hours := durationSeconds / secondsPerHour
  let points := hours * POINTS_PER_HOUR
  let points := if taskCompleted then
      let p := points + TASK_COMPLETE_BONUS
      match taskDifficulty with
      | some d =>
        match DIFFICULTY_BONUS d with
        | some b => p + b
        | none => p
      | none => p
    else points
  jsRound points

/-- The `Gamification` singleton from the data models: running totals
for points and streaks.  `lastStudyDate` is a date-only ISO string
(`none` models `null`). -/
structure Gamification where
  totalPoints : ℚ
  lifetimePoints : ℚ
  pointsThisWeek : ℚ
  currentStreak : ℤ
  longestStreak : ℤ
  lastStudyDate : Option String
deriving Repr, DecidableEq

/-- Function `updatePoints` from `src/utils/storage.js` (lines 406-433),
restricted to its pure state transition: the storage read/write and the
create-if-missing default are the collaborator's concern; the function
is modelled on the gamification record it updates. -/
def updatePoints (gamification : Gamification) (amount : ℚ) : Gamification :=
  let g := { gamification with totalPoints := gamification.totalPoints + amount }
  let g := if 0 < amount then
      { g with lifetimePoints := g.lifetimePoints + amount
               pointsThisWeek := g.pointsThisWeek + amount }
    else g
  { g with totalPoints := max 0 g.totalPoints }

/-- Function `updateStreak` from `src/utils/storage.js` (lines 452-493),
restricted to its pure state transition; the two clock-derived date
strings (`today`, `yesterdayStr`) are passed explicitly. -/
def updateStreak (gamification : Gamification)
    (today yesterdayStr : String) : Gamification :=
  if gamification.lastStudyDate = some today then
    gamification
  else
    let g :=
      if gamification.lastStudyDate = some yesterdayStr then
        { gamification with currentStreak := gamification.currentStreak + 1 }
      else if gamification.lastStudyDate = none then
        { gamification with currentStreak := 1 }
      else
        { gamification with currentStreak := 1 }
    let g := { g with longestStreak := max g.longestStreak g.currentStreak }
    { g with lastStudyDate := some today }

/-- Result of the begin-session handler: the error message shown in
`session-goal-error` (if any) and the value of the active-session slot
after the handler ran. -/
structure BeginSessionResult where
  error : Option String
  slot : Option ActiveSession
deriving Repr, DecidableEq

/-- Handler `handleBeginSession` from the goals page
(`src/unnamed/part_003`, lines 944-984), restricted to its effect on the
active-session slot.  `selectedGoalId = none` models a falsy selection;
`goals` is the page's loaded goal list (visible to the handler but never
consulted by it); `slot` is the stored active session before the call.
On a truthy selection the handler unconditionally creates and saves a new
`ActiveSession` via `createActiveSession`. -/
def handleBeginSession (selectedGoalId : Option String)
    (taskId : Option String) (mode : String) (_goals : List String)
    (slot : Option ActiveSession) (now : ℤ) : BeginSessionResult :=
  match selectedGoalId with
  | none => { error := some "Please select a goal", slot := slot }
  | some goalId =>
    let session := createActiveSession goalId taskId mode none now
    { error := none, slot := some session }

/-- The fields of a `Goal` consulted by the aggregation and reward code;
presentation-only attributes (name, category, icon, color, task unit,
creation timestamp) are omitted.  `weeklyHourGoal`/`weeklyTaskGoal` are
`none` when `null`. -/
structure Goal where
  id : String
  trackHours : Bool
  weeklyHourGoal : Option ℚ
  trackTasks : Bool
  weeklyTaskGoal : Option ℚ
  archived : Bool
deriving Repr, DecidableEq

/-- The fields of a completed `Session` consulted by the weekly
aggregation: owning goal, start timestamp (epoch ms) and active duration
in seconds. -/
structure Session where
  goalId : String
  startTime : ℤ
  duration : ℚ
deriving Repr, DecidableEq

/-- The fields of a `Task` consulted by the weekly aggregation.
`completedAt` is an epoch-ms timestamp, `none` when `null`. -/
structure Task where
  goalId : String
  completed : Bool
  completedAt : Option ℤ
deriving Repr, DecidableEq

/-- Per-goal entry of a weekly-progress snapshot. -/
structure GoalProgress where
  hoursCompleted : ℚ
  tasksCompleted : ℚ
deriving Repr, DecidableEq

/-- The `WeeklyProgress` snapshot from the data models.  Week boundaries
are epoch day numbers (modelling the date-only ISO strings); `goals` is
the JS object keyed by goal id, modelled as an insertion-ordered
association list. -/
structure WeeklyProgress where
  weekStart : ℤ
  weekEnd : ℤ
  goals : List (String × GoalProgress)
  totalHours : ℚ
  totalTasks : ℚ
deriving Repr, DecidableEq

/-- Property read `obj[key]` on a JS object modelled as an association
list: `none` when the key is absent. -/
def objGet {α : Type} : List (String × α) → String → Option α
  | [], _ => none
  | (k, v) :: rest, key => if k = key then some v else objGet rest key

/-- Property write `obj[key] = value` on a JS object modelled as an
association list: replaces in place, or appends when the key is new. -/
def objSet {α : Type} : List (String × α) → String → α → List (String × α)
  | [], key, value => [(key, value)]
  | (k, v) :: rest, key, value =>
    if k = key then (key, value) :: rest else (k, v) :: objSet rest key value

/-- Which day starts the week (the `weekStartDay` setting). -/
inductive WeekStartDay where
  | monday
  | sunday
deriving Repr, DecidableEq

/-- Milliseconds in a calendar day. -/
def msPerDay : ℤ := 86400000

/-- Model of `new Date(ms).toISOString().split('T')[0]`: the epoch day
number containing the timestamp (floor division, so pre-epoch
timestamps land on the correct earlier day). -/
def dateOnly (ms : ℤ) : ℤ := Int.fdiv ms msPerDay

/-- Model of `Date.getDay()` (UTC) on an epoch day number: day 0
(1970-01-01) was a Thursday, so the JS day-of-week (Sunday = 0) is
`(n + 4) mod 7`. -/
def getDay (n : ℤ) : ℤ := (n + 4).emod 7

/-- Function `getWeekStart` from the calculation utilities
(`src/unnamed/part_000`, lines 25-43), at day granularity (the
`setHours(0,0,0,0)` reset is the identity on day numbers). -/
def getWeekStart (n : ℤ) (weekStartDay : WeekStartDay := .monday) : ℤ :=
  let day := getDay n
  let diff := match weekStartDay with
    | .monday => if day = 0 then 6 else day - 1
    | .sunday => day
  n - diff

/-- Function `getWeekEnd` from the calculation utilities
(`src/unnamed/part_000`, lines 52-58), at day granularity (the
`setHours(23,59,59,999)` adjustment stays within the same day). -/
def getWeekEnd (n : ℤ) (weekStartDay : WeekStartDay := .monday) : ℤ :=
  getWeekStart n weekStartDay + 6

/-- Session-processing step of `calculateWeeklyProgress`: the body of
`sessions.forEach` (`src/unnamed/part_000`, lines 192-221).  The JS
`goalExists = !!progress.goals[session.goalId]` test is `Option.isSome`
on the association-list lookup. -/
def sessionStep (progress : WeeklyProgress) (session : Session) :
    WeeklyProgress :=
  let sessionDate := dateOnly session.startTime
  let inRange := progress.weekStart ≤ sessionDate ∧ sessionDate ≤ progress.weekEnd
  let goalExists := (objGet progress.goals session.goalId).isSome
  if inRange then
    if goalExists then
      let entry := (objGet progress.goals session.goalId).getD ⟨0, 0⟩
      let hours := session.duration / secondsPerHour
      { progress with
        goals := objSet progress.goals session.goalId
          { entry with hoursCompleted := entry.hoursCompleted + hours }
        totalHours := progress.totalHours + hours }
    else progress
  else progress

/-- Task-processing step of `calculateWeeklyProgress`: the body of
`tasks.forEach` (`src/unnamed/part_000`, lines 224-235).  The JS
`task.completed && task.completedAt` guard is the conjunction of the
flag and a present completion timestamp. -/
def taskStep (progress : WeeklyProgress) (task : Task) : WeeklyProgress :=
  if task.completed && task.completedAt.isSome then
    let completedDate := dateOnly (task.completedAt.getD 0)
    if progress.weekStart ≤ completedDate ∧ completedDate ≤ progress.weekEnd then
      if (objGet progress.goals task.goalId).isSome then
        let entry := (objGet progress.goals task.goalId).getD ⟨0, 0⟩
        { progress with
          goals := objSet progress.goals task.goalId
            { entry with tasksCompleted := entry.tasksCompleted + 1 }
          totalTasks := progress.totalTasks + 1 }
      else progress
    else progress
  else progress

/-- Rounding used at the end of `calculateWeeklyProgress`:
`Math.round(x * 100) / 100`. -/
def round2 (q : ℚ) : ℚ := (jsRound (q * 100) : ℚ) / 100

/-- Initialization phase of `calculateWeeklyProgress`
(`src/unnamed/part_000`, lines 160-184): week window plus a zeroed
progress entry for every goal. -/
def initWeeklyProgress (goals : List Goal) (weekStart : ℤ) : WeeklyProgress :=
  { weekStart := weekStart
    weekEnd := getWeekEnd weekStart
    goals := goals.foldl (fun m g => objSet m g.id ⟨0, 0⟩) []
    totalHours := 0
    totalTasks := 0 }

/-- Final rounding pass of `calculateWeeklyProgress`
(`src/unnamed/part_000`, lines 237-242): hour figures are rounded to two
decimal places. -/
def finalizeWeeklyProgress (progress : WeeklyProgress) : WeeklyProgress :=
  { progress with
    totalHours := round2 progress.totalHours
    goals := progress.goals.map fun (k, e) =>
      (k, { e with hoursCompleted := round2 e.hoursCompleted }) }

/-- Function `calculateWeeklyProgress` from the calculation utilities
(`src/unnamed/part_000`, lines 153-245): initializes a zeroed entry per
goal, folds sessions then completed tasks over the inclusive
`[weekStart, weekEnd]` window, and rounds hour figures to 2 decimals.
`console.log` calls are effect-free and omitted. -/
def calculateWeeklyProgress (sessions : List Session) (tasks : List Task)
    (goals : List Goal) (weekStart : ℤ) : WeeklyProgress :=
  finalizeWeeklyProgress
    (tasks.foldl taskStep
      (sessions.foldl sessionStep (initWeeklyProgress goals weekStart)))

/-- Result of `calculateWeeklyBonus`: per-goal bonuses (a JS object,
modelled as an association list), the perfect-week bonus, and the sum. -/
structure WeeklyBonusResult where
  goalBonuses : List (String × ℚ)
  perfectWeekBonus : ℚ
  total : ℚ
deriving Repr, DecidableEq

/-- Loop state of the `goals.forEach` in `calculateWeeklyBonus`: the
result being built plus the `allGoalsMet` / `anyGoalsMet` flags. -/
structure WeeklyBonusState where
  result : WeeklyBonusResult
  allGoalsMet : Bool
  anyGoalsMet : Bool
deriving Repr, DecidableEq

/-- JS truthiness of a nullable number (`null`, `0` and `NaN` are falsy;
`NaN` does not arise in the model). -/
def numTruthy : Option ℚ → Bool
  | none => false
  | some v => v ≠ 0

/-- Goal-met check inside `calculateWeeklyBonus`
(`src/utils/points.js`, lines 145-159): each target is enforced only
when its tracking flag and its target value are truthy. -/
def goalMetCheck (goal : Goal) (progress : GoalProgress) : Bool :=
  let met := true
  let met := if goal.trackHours && numTruthy goal.weeklyHourGoal then
      if progress.hoursCompleted < goal.weeklyHourGoal.getD 0 then false else met
    else met
  let met := if goal.trackTasks && numTruthy goal.weeklyTaskGoal then
      if progress.tasksCompleted < goal.weeklyTaskGoal.getD 0 then false else met
    else met
  met

/-- Body of the `goals.forEach` in `calculateWeeklyBonus`
(`src/utils/points.js`, lines 139-168): archived goals and goals with no
progress entry are skipped; otherwise the goal's bonus and the two flags
are updated. -/
def weeklyBonusStep (weeklyProgress : WeeklyProgress)
    (state : WeeklyBonusState) (goal : Goal) : WeeklyBonusState :=
  if goal.archived then state
  else if (objGet weeklyProgress.goals goal.id).isSome then
    let progress := (objGet weeklyProgress.goals goal.id).getD ⟨0, 0⟩
    if goalMetCheck goal progress then
      { state with
        result := { state.result with
          goalBonuses := objSet state.result.goalBonuses goal.id WEEKLY_GOAL_BONUS
          total := state.result.total + WEEKLY_GOAL_BONUS }
        anyGoalsMet := true }
    else
      { state with allGoalsMet := false }
  else state

/-- Function `calculateWeeklyBonus` from `src/utils/points.js`
(lines 125-177).  `weeklyProgress = none` models a `null` argument (the
`!weeklyProgress || !goals || goals.length === 0` early return). -/
def calculateWeeklyBonus (weeklyProgress : Option WeeklyProgress)
    (goals : List Goal) : WeeklyBonusResult :=
  let result : WeeklyBonusResult :=
    { goalBonuses := [], perfectWeekBonus := 0, total := 0 }
  match weeklyProgress with
  | none => result
  | some wp =>
    if goals.length = 0 then result
    else
      let state : WeeklyBonusState :=
        { result := result, allGoalsMet := true, anyGoalsMet := false }
      let state := goals.foldl (weeklyBonusStep wp) state
      if state.allGoalsMet && state.anyGoalsMet then
        { state.result with
          perfectWeekBonus := PERFECT_WEEK_BONUS
          total := state.result.total + PERFECT_WEEK_BONUS }
      else state.result

/-- C1: the elapsed-time function returns
`max 0 ⌊(end − startTime)/1000 − totalPausedDuration⌋` where `end` is the
current time when `pausedAt` is null and `pausedAt` when it is set; it is
never negative; and a session with `totalPausedDuration = 0`,
`pausedAt = null` evaluated 3700 seconds after its start returns 3700. -/
theorem elapsed_time_formula_nonneg_and_3700 :
    (∀ (s : ActiveSession) (now : ℤ),
        Calculations.calculateElapsedTime s now =
          max 0 ⌊((s.pausedAt.getD now - s.startTime : ℤ) : ℚ) / 1000
                  - s.totalPausedDuration⌋) ∧
    (∀ (s : ActiveSession) (now : ℤ),
        0 ≤ Calculations.calculateElapsedTime s now) ∧
    (∀ (T : ℤ) (gid : String) (tid : Option String) (mode : String)
        (ps : Option PomodoroSettings) (pc : ℤ),
        Calculations.calculateElapsedTime
          { goalId := gid, taskId := tid, startTime := T, pausedAt := none,
            totalPausedDuration := 0, mode := mode, pomodoroSettings := ps,
            pomodorosCompleted := pc } (T + 3700 * 1000) = 3700) := by
  refine ⟨?_, ?_, ?_⟩
  · intro s now
    cases h : s.pausedAt <;>
      simp [Calculations.calculateElapsedTime, h]
  · intro s now
    exact le_max_left 0 _
  · intro T gid tid mode ps pc
    simp only [Calculations.calculateElapsedTime]
    have h : (T + 3700 * 1000 - T : ℤ) = 3700000 := by ring
    rw [h]
    norm_num

/-- C10: the background service worker's elapsed-time implementation
(which subtracts the in-progress pause duration from `now − start`)
agrees with the calculation utilities' implementation (which substitutes
`pausedAt` for `now`) on every active session and current time. -/
theorem background_elapsed_eq_calculations_elapsed
    (s : ActiveSession) (now : ℤ) :
    Background.calculateElapsedTime s now =
      Calculations.calculateElapsedTime s now := by
  cases h : s.pausedAt with
  | none =>
    simp [Background.calculateElapsedTime, Calculations.calculateElapsedTime, h]
  | some p =>
    simp only [Background.calculateElapsedTime, Calculations.calculateElapsedTime, h]
    congr 2
    push_cast
    ring

/-- C3 counterexample: a two-hour session with a completed hard task does
NOT earn 40 points — the base rate is 5 points per hour, so it earns
2×5 + 5 + 15 = 30 (the claimed 40 matches only the stale docstring
written for a 10-points-per-hour rate). -/
theorem session_points_7200_hard_ne_40 :
    calculateSessionPoints 7200 true (some "hard") ≠ 40 := by
  have h : calculateSessionPoints 7200 true (some "hard") = 30 := by
    show jsRound (7200 / secondsPerHour * POINTS_PER_HOUR
      + TASK_COMPLETE_BONUS + 15) = 30
    unfold jsRound secondsPerHour POINTS_PER_HOUR TASK_COMPLETE_BONUS
    rw [Int.floor_eq_iff] <;> norm_num
  rw [h]
  decide

/-- C3 amended: a two-hour session with a completed hard task earns
exactly 30 points, and a one-hour session with no task earns exactly 5. -/
theorem session_points_7200_hard_and_3600_plain :
    calculateSessionPoints 7200 true (some "hard") = 30 ∧
    calculateSessionPoints 3600 false none = 5 := by
  constructor
  · show jsRound (7200 / secondsPerHour * POINTS_PER_HOUR
      + TASK_COMPLETE_BONUS + 15) = 30
    unfold jsRound secondsPerHour POINTS_PER_HOUR TASK_COMPLETE_BONUS
    rw [Int.floor_eq_iff] <;> norm_num
  · show jsRound (3600 / secondsPerHour * POINTS_PER_HOUR) = 5
    unfold jsRound secondsPerHour POINTS_PER_HOUR
    rw [Int.floor_eq_iff] <;> norm_num

/-- C4: for every non-negative duration `d`, the session-points function
with no completed task returns `round(d/3600 × 5)`, with no task or
difficulty bonus added (whatever difficulty value accompanies the call). -/
theorem session_points_base_formula (d : ℚ) (h : 0 ≤ d)
    (diff : Option String) :
    calculateSessionPoints d false diff = jsRound (d / 3600 * 5) := rfl

/-- Witness for `session_points_base_formula` at `d = 5400`. -/
theorem session_points_base_formula_witness :
    (0 : ℚ) ≤ 5400 ∧
    calculateSessionPoints 5400 false none = jsRound (5400 / 3600 * 5) :=
  ⟨by norm_num, session_points_base_formula 5400 (by norm_num) none⟩

/-- C7: the weekly-progress aggregation is a pure function of the
sessions, tasks, goals and week start, so recomputing it on identical
inputs yields identical (deeply equal) output. -/
theorem weekly_progress_deterministic (sessions : List Session)
    (tasks : List Task) (goals : List Goal) (weekStart : ℤ) :
    calculateWeeklyProgress sessions tasks goals weekStart =
      calculateWeeklyProgress sessions tasks goals weekStart := rfl

/-- C2 counterexample: with an active session already stored and a valid
selected goal, the begin-session handler reports no failure and replaces
the stored ActiveSession with a fresh one — it does not fail and does not
leave the slot unchanged. -/
theorem begin_session_overwrites_active_session :
    (handleBeginSession (some "goal_1") none "free" ["goal_1"]
        (some (createActiveSession "goal_1" none "free" none 0)) 60000).error
      = none ∧
    (handleBeginSession (some "goal_1") none "free" ["goal_1"]
        (some (createActiveSession "goal_1" none "free" none 0)) 60000).slot
      ≠ some (createActiveSession "goal_1" none "free" none 0) := by
  constructor
  · rfl
  · decide

/-- C2 amended: the begin-session handler fails (reporting an error and
leaving the slot unchanged) only when no goal is selected; for any truthy
selected goal id it unconditionally creates and stores a fresh
ActiveSession (`startTime = now`, `pausedAt = null`,
`totalPausedDuration = 0`), never consulting the goal list and silently
overwriting any existing active session. -/
theorem begin_session_behaviour :
    (∀ (taskId : Option String) (mode : String) (goals : List String)
        (slot : Option ActiveSession) (now : ℤ),
        handleBeginSession none taskId mode goals slot now =
          { error := some "Please select a goal", slot := slot }) ∧
    (∀ (gid : String) (taskId : Option String) (mode : String)
        (goals : List String) (slot : Option ActiveSession) (now : ℤ),
        handleBeginSession (some gid) taskId mode goals slot now =
          { error := none
            slot := some (createActiveSession gid taskId mode none now) }) := by
  exact ⟨fun _ _ _ _ _ => rfl, fun _ _ _ _ _ _ => rfl⟩

/-- C9: starting from a gamification record with non-negative point
fields, updating by any amount leaves `totalPoints` non-negative, never
decreases `lifetimePoints`, and changes `lifetimePoints` and
`pointsThisWeek` (by exactly the amount) only when the amount is
strictly positive. -/
theorem update_points_invariants (g : Gamification) (amount : ℚ)
    (h1 : 0 ≤ g.totalPoints) (h2 : 0 ≤ g.lifetimePoints)
    (h3 : 0 ≤ g.pointsThisWeek) :
    0 ≤ (updatePoints g amount).totalPoints ∧
    g.lifetimePoints ≤ (updatePoints g amount).lifetimePoints ∧
    (amount ≤ 0 →
      (updatePoints g amount).lifetimePoints = g.lifetimePoints ∧
      (updatePoints g amount).pointsThisWeek = g.pointsThisWeek) ∧
    (0 < amount →
      (updatePoints g amount).lifetimePoints = g.lifetimePoints + amount ∧
      (updatePoints g amount).pointsThisWeek = g.pointsThisWeek + amount) := by
  have htp : (updatePoints g amount).totalPoints =
      max 0 (g.totalPoints + amount) := by
    unfold updatePoints
    by_cases h : 0 < amount <;> simp [h]
  have hlp : (updatePoints g amount).lifetimePoints =
      (if 0 < amount then g.lifetimePoints + amount else g.lifetimePoints) := by
    unfold updatePoints
    by_cases h : 0 < amount <;> simp [h]
  have hwk : (updatePoints g amount).pointsThisWeek =
      (if 0 < amount then g.pointsThisWeek + amount else g.pointsThisWeek) := by
    unfold updatePoints
    by_cases h : 0 < amount <;> simp [h]
  by_cases hpos : 0 < amount
  · refine ⟨?_, ?_, ?_, ?_⟩
    · rw [htp]; exact le_max_left 0 _
    · rw [hlp]; simp only [hpos, if_true]; linarith
    · intro hc; exact absurd hpos (not_lt.mpr hc)
    · intro _; rw [hlp, hwk]; simp [hpos]
  · refine ⟨?_, ?_, ?_, ?_⟩
    · rw [htp]; exact le_max_left 0 _
    · rw [hlp]; simp [hpos]
    · intro _; rw [hlp, hwk]; simp [hpos]
    · intro hc; exact absurd hc hpos

/-- Witness for `update_points_invariants` at a concrete record and a
negative amount. -/
theorem update_points_invariants_witness :
    (0 : ℚ) ≤ 10 ∧ (0 : ℚ) ≤ 20 ∧ (0 : ℚ) ≤ 3 ∧
    (0 ≤ (updatePoints ⟨10, 20, 3, 0, 0, none⟩ (-5)).totalPoints ∧
      (20 : ℚ) ≤ (updatePoints ⟨10, 20, 3, 0, 0, none⟩ (-5)).lifetimePoints ∧
      ((-5 : ℚ) ≤ 0 →
        (updatePoints ⟨10, 20, 3, 0, 0, none⟩ (-5)).lifetimePoints = 20 ∧
        (updatePoints ⟨10, 20, 3, 0, 0, none⟩ (-5)).pointsThisWeek = 3) ∧
      ((0 : ℚ) < -5 →
        (updatePoints ⟨10, 20, 3, 0, 0, none⟩ (-5)).lifetimePoints = 20 + -5 ∧
        (updatePoints ⟨10, 20, 3, 0, 0, none⟩ (-5)).pointsThisWeek = 3 + -5)) :=
  ⟨by norm_num, by norm_num, by norm_num,
    update_points_invariants ⟨10, 20, 3, 0, 0, none⟩ (-5)
      (by norm_num) (by norm_num) (by norm_num)⟩

/-- Closed form of `updateStreak`: a no-op when already credited today,
otherwise the streak is continued (yesterday) or restarted (gap or null),
the longest streak is recomputed and the last study date set to today. -/
theorem updateStreak_eq (g : Gamification) (t y : String) :
    updateStreak g t y =
      if g.lastStudyDate = some t then g
      else
        { g with
          currentStreak :=
            if g.lastStudyDate = some y then g.currentStreak + 1 else 1
          longestStreak := max g.longestStreak
            (if g.lastStudyDate = some y then g.currentStreak + 1 else 1)
          lastStudyDate := some t } := by
  unfold updateStreak
  by_cases h1 : g.lastStudyDate = some t
  · simp [h1]
  · by_cases h2 : g.lastStudyDate = some y
    · simp [h1, h2]
    · by_cases h3 : g.lastStudyDate = none <;> simp [h1, h2, h3]

/-- C5: the streak-update operation as a state machine — same-day calls
change nothing; a yesterday `lastStudyDate` increments the streak; any
other (including null) resets it to 1; every non-no-op call recomputes
`longestStreak` as the max and stamps `lastStudyDate` with today, making
repeated same-day calls no-ops after the first. -/
theorem update_streak_state_machine :
    (∀ (g : Gamification) (t y : String),
        g.lastStudyDate = some t → updateStreak g t y = g) ∧
    (∀ (g : Gamification) (t y : String),
        g.lastStudyDate ≠ some t → g.lastStudyDate = some y →
        (updateStreak g t y).currentStreak = g.currentStreak + 1) ∧
    (∀ (g : Gamification) (t y : String),
        g.lastStudyDate ≠ some t → g.lastStudyDate ≠ some y →
        (updateStreak g t y).currentStreak = 1) ∧
    (∀ (g : Gamification) (t y : String),
        g.lastStudyDate ≠ some t →
        (updateStreak g t y).longestStreak =
          max g.longestStreak (updateStreak g t y).currentStreak ∧
        (updateStreak g t y).lastStudyDate = some t) ∧
    (∀ (g : Gamification) (t y yAgain : String),
        updateStreak (updateStreak g t y) t yAgain = updateStreak g t y) := by
  have hlast : ∀ (g : Gamification) (t y : String),
      (updateStreak g t y).lastStudyDate = some t := by
    intro g t y
    rw [updateStreak_eq]
    by_cases h : g.lastStudyDate = some t <;> simp [h]
  refine ⟨?_, ?_, ?_, ?_, ?_⟩
  · intro g t y h
    rw [updateStreak_eq, if_pos h]
  · intro g t y ht hy
    rw [updateStreak_eq, if_neg ht]
    simp [hy]
  · intro g t y ht hy
    rw [updateStreak_eq, if_neg ht]
    simp [hy]
  · intro g t y ht
    rw [updateStreak_eq, if_neg ht]
    by_cases hy : g.lastStudyDate = some y <;> simp [hy]
  · intro g t y yAgain
    rw [updateStreak_eq (updateStreak g t y), if_pos (hlast g t y)]

/-- Witness for `update_streak_state_machine`: a streak of 4 with
yesterday's study date becomes 5 today. -/
theorem update_streak_state_machine_witness :
    (Gamification.mk 0 0 0 4 4 (some "2026-10-10")).lastStudyDate
        ≠ some "2026-10-11" ∧
    (Gamification.mk 0 0 0 4 4 (some "2026-10-10")).lastStudyDate
        = some "2026-10-10" ∧
    (updateStreak (Gamification.mk 0 0 0 4 4 (some "2026-10-10"))
        "2026-10-11" "2026-10-10").currentStreak = 4 + 1 :=
  ⟨by simp, rfl,
    update_streak_state_machine.2.1
      (Gamification.mk 0 0 0 4 4 (some "2026-10-10"))
      "2026-10-11" "2026-10-10" (by simp) rfl⟩

/-- Reading back through a write: `objSet` affects exactly the written
key. -/
theorem objGet_objSet {α : Type} (m : List (String × α)) (k k' : String)
    (v : α) :
    objGet (objSet m k v) k' = if k = k' then some v else objGet m k' := by
  induction m with
  | nil =>
    by_cases h : k = k' <;> simp [objSet, objGet, h]
  | cons hd tl ih =>
    obtain ⟨k0, v0⟩ := hd
    by_cases h0 : k0 = k
    · subst h0
      by_cases h : k0 = k' <;> simp [objSet, objGet, h]
    · simp only [objSet, if_neg h0]
      by_cases h : k0 = k'
      · subst h
        have h2 : k ≠ k0 := fun hh => h0 hh.symm
        simp [objGet, h2]
      · simp [objGet, h, ih]

/-- A key naming no goal in the list has no entry in the initialized
progress map. -/
theorem objGet_init_none (goals : List Goal)
    (m0 : List (String × GoalProgress)) (k : String)
    (hk : k ∉ goals.map Goal.id) (h0 : objGet m0 k = none) :
    objGet (goals.foldl (fun m g => objSet m g.id ⟨0, 0⟩) m0) k = none := by
  induction goals generalizing m0 with
  | nil => exact h0
  | cons g gs ih =>
    simp only [List.map_cons, List.mem_cons, not_or] at hk
    obtain ⟨hk1, hk2⟩ := hk
    simp only [List.foldl_cons]
    refine ih _ hk2 ?_
    rw [objGet_objSet]
    have hne : g.id ≠ k := fun he => hk1 he.symm
    simp [hne, h0]

/-- Processing one session never creates a progress entry. -/
theorem sessionStep_goals_none (p : WeeklyProgress) (s : Session)
    (k : String) (h : objGet p.goals k = none) :
    objGet (sessionStep p s).goals k = none := by
  simp only [sessionStep]
  by_cases hr : p.weekStart ≤ dateOnly s.startTime ∧
      dateOnly s.startTime ≤ p.weekEnd
  · rw [if_pos hr]
    by_cases hg : (objGet p.goals s.goalId).isSome = true
    · rw [if_pos hg]
      have hne : s.goalId ≠ k := by
        intro heq
        rw [heq, h] at hg
        simp at hg
      dsimp only
      rw [objGet_objSet]
      simp [hne, h]
    · rw [if_neg hg]
      exact h
  · rw [if_neg hr]
    exact h

/-- Processing one session leaves the week window unchanged. -/
theorem sessionStep_week (p : WeeklyProgress) (s : Session) :
    (sessionStep p s).weekStart = p.weekStart ∧
    (sessionStep p s).weekEnd = p.weekEnd := by
  simp only [sessionStep]
  by_cases hr : p.weekStart ≤ dateOnly s.startTime ∧
      dateOnly s.startTime ≤ p.weekEnd
  · rw [if_pos hr]
    by_cases hg : (objGet p.goals s.goalId).isSome = true
    · rw [if_pos hg]
      exact ⟨rfl, rfl⟩
    · rw [if_neg hg]
      exact ⟨rfl, rfl⟩
  · rw [if_neg hr]
    exact ⟨rfl, rfl⟩

/-- Folding sessions never creates a progress entry. -/
theorem foldl_sessionStep_goals_none (ss : List Session)
    (p : WeeklyProgress) (k : String) (h : objGet p.goals k = none) :
    objGet (ss.foldl sessionStep p).goals k = none := by
  induction ss generalizing p with
  | nil => exact h
  | cons s ss ih => exact ih _ (sessionStep_goals_none p s k h)

/-- Folding sessions leaves the week window unchanged. -/
theorem foldl_sessionStep_week (ss : List Session) (p : WeeklyProgress) :
    (ss.foldl sessionStep p).weekStart = p.weekStart ∧
    (ss.foldl sessionStep p).weekEnd = p.weekEnd := by
  induction ss generalizing p with
  | nil => exact ⟨rfl, rfl⟩
  | cons s ss ih =>
    have hw := sessionStep_week p s
    have hrest := ih (sessionStep p s)
    exact ⟨hrest.1.trans hw.1, hrest.2.trans hw.2⟩

/-- A session that is out of the week window or whose goal id has no
progress entry is a no-op for the aggregation state. -/
theorem sessionStep_id_of_skip (p : WeeklyProgress) (s : Session)
    (h : objGet p.goals s.goalId = none ∨
      ¬(p.weekStart ≤ dateOnly s.startTime ∧
          dateOnly s.startTime ≤ p.weekEnd)) :
    sessionStep p s = p := by
  simp only [sessionStep]
  rcases h with h | h
  · by_cases hr : p.weekStart ≤ dateOnly s.startTime ∧
        dateOnly s.startTime ≤ p.weekEnd
    · rw [if_pos hr, if_neg (by simp [h])]
    · rw [if_neg hr]
  · rw [if_neg h]

/-- A task that is incomplete, lacks a completion timestamp, completed
outside the week window, or whose goal id has no progress entry is a
no-op for the aggregation state. -/
theorem taskStep_id_of_skip (p : WeeklyProgress) (t : Task)
    (h : objGet p.goals t.goalId = none ∨ t.completed = false ∨
      t.completedAt = none ∨
      (∀ ms, t.completedAt = some ms →
        ¬(p.weekStart ≤ dateOnly ms ∧ dateOnly ms ≤ p.weekEnd))) :
    taskStep p t = p := by
  simp only [taskStep]
  rcases h with h | h | h | h
  · by_cases h1 : (t.completed && t.completedAt.isSome) = true
    · rw [if_pos h1]
      by_cases hr : p.weekStart ≤ dateOnly (t.completedAt.getD 0) ∧
          dateOnly (t.completedAt.getD 0) ≤ p.weekEnd
      · rw [if_pos hr, if_neg (by simp [h])]
      · rw [if_neg hr]
    · rw [if_neg h1]
  · rw [if_neg (by simp [h])]
  · rw [if_neg (by simp [h])]
  · by_cases h1 : (t.completed && t.completedAt.isSome) = true
    · rw [if_pos h1]
      have hsome : t.completedAt.isSome = true :=
        ((Bool.and_eq_true _ _).mp h1).2
      obtain ⟨ms, hms⟩ := Option.isSome_iff_exists.mp hsome
      simp only [hms, Option.getD_some]
      rw [if_neg (h ms hms)]
    · rw [if_neg h1]

/-- C8: a session whose goal id has no initialized entry in the goal
list, or whose start date is outside the inclusive `[weekStart, weekEnd]`
window, contributes nothing to the aggregation — the output is as if it
were absent; likewise a task that is not completed with an in-window
completion date and a known goal id. -/
theorem aggregation_skips_unknown_and_out_of_range :
    (∀ (s : Session) (ss : List Session) (ts : List Task)
        (goals : List Goal) (w : ℤ),
        (s.goalId ∉ goals.map Goal.id ∨
          ¬(w ≤ dateOnly s.startTime ∧
              dateOnly s.startTime ≤ getWeekEnd w)) →
        calculateWeeklyProgress (s :: ss) ts goals w =
          calculateWeeklyProgress ss ts goals w) ∧
    (∀ (t : Task) (ss : List Session) (ts : List Task)
        (goals : List Goal) (w : ℤ),
        (t.goalId ∉ goals.map Goal.id ∨ t.completed = false ∨
          t.completedAt = none ∨
          (∀ ms, t.completedAt = some ms →
            ¬(w ≤ dateOnly ms ∧ dateOnly ms ≤ getWeekEnd w))) →
        calculateWeeklyProgress ss (t :: ts) goals w =
          calculateWeeklyProgress ss ts goals w) := by
  constructor
  · intro s ss ts goals w h
    have hid : sessionStep (initWeeklyProgress goals w) s =
        initWeeklyProgress goals w := by
      apply sessionStep_id_of_skip
      rcases h with h | h
      · exact Or.inl (objGet_init_none goals [] s.goalId h rfl)
      · exact Or.inr h
    unfold calculateWeeklyProgress
    rw [List.foldl_cons, hid]
  · intro t ss ts goals w h
    have hid : taskStep (ss.foldl sessionStep (initWeeklyProgress goals w)) t =
        ss.foldl sessionStep (initWeeklyProgress goals w) := by
      apply taskStep_id_of_skip
      rcases h with h | h | h | h
      · exact Or.inl (foldl_sessionStep_goals_none ss _ t.goalId
          (objGet_init_none goals [] t.goalId h rfl))
      · exact Or.inr (Or.inl h)
      · exact Or.inr (Or.inr (Or.inl h))
      · refine Or.inr (Or.inr (Or.inr ?_))
        intro ms hms
        have hw := foldl_sessionStep_week ss (initWeeklyProgress goals w)
        rw [hw.1, hw.2]
        exact h ms hms
    unfold calculateWeeklyProgress
    rw [List.foldl_cons, hid]

/-- Witness for `aggregation_skips_unknown_and_out_of_range`: a session
referencing a goal id absent from an empty goal list changes nothing. -/
theorem aggregation_skips_witness :
    ((Session.mk "ghost" 0 3600).goalId ∉ ([] : List Goal).map Goal.id ∨
      ¬((0 : ℤ) ≤ dateOnly (Session.mk "ghost" 0 3600).startTime ∧
          dateOnly (Session.mk "ghost" 0 3600).startTime ≤ getWeekEnd 0)) ∧
    calculateWeeklyProgress [Session.mk "ghost" 0 3600] [] [] 0 =
      calculateWeeklyProgress [] [] [] 0 :=
  ⟨Or.inl (by simp),
    aggregation_skips_unknown_and_out_of_range.1
      (Session.mk "ghost" 0 3600) [] [] [] 0 (Or.inl (by simp))⟩

/-- Claim-side predicate: the goal is evaluated by the weekly-bonus
computation — not archived and holding a progress entry. -/
def evaluatedGoal (wp : WeeklyProgress) (g : Goal) : Bool :=
  !g.archived && (objGet wp.goals g.id).isSome

/-- Claim-side met condition: (hours tracking disabled OR
`hoursCompleted ≥ weeklyHourGoal`) AND (tasks tracking disabled OR
`tasksCompleted ≥ weeklyTaskGoal`), read with the targets present. -/
def metPerClaim (g : Goal) (p : GoalProgress) : Bool :=
  (!g.trackHours || decide (g.weeklyHourGoal.getD 0 ≤ p.hoursCompleted)) &&
  (!g.trackTasks || decide (g.weeklyTaskGoal.getD 0 ≤ p.tasksCompleted))

/-- Claim-side predicate: the goal is evaluated and met. -/
def metEvaluated (wp : WeeklyProgress) (g : Goal) : Bool :=
  evaluatedGoal wp g && metPerClaim g ((objGet wp.goals g.id).getD ⟨0, 0⟩)

/-- Claim-side predicate: the goal is evaluated and unmet. -/
def unmetEvaluated (wp : WeeklyProgress) (g : Goal) : Bool :=
  evaluatedGoal wp g && !metPerClaim g ((objGet wp.goals g.id).getD ⟨0, 0⟩)

/-- The Goal invariant from the data model: when a tracking flag is on,
its weekly target is a positive number. -/
def goalWF (g : Goal) : Prop :=
  (g.trackHours = true → ∃ v, g.weeklyHourGoal = some v ∧ 0 < v) ∧
  (g.trackTasks = true → ∃ v, g.weeklyTaskGoal = some v ∧ 0 < v)

/-- Under the Goal invariant the code's truthiness-guarded met check
coincides with the claim-side met condition. -/
theorem goalMetCheck_eq_metPerClaim (g : Goal) (p : GoalProgress)
    (h : goalWF g) : goalMetCheck g p = metPerClaim g p := by
  obtain ⟨h1, h2⟩ := h
  cases hth : g.trackHours with
  | false =>
    cases htt : g.trackTasks with
    | false => simp [goalMetCheck, metPerClaim, hth, htt]
    | true =>
      obtain ⟨v, hv, hvpos⟩ := h2 htt
      by_cases hlt : p.tasksCompleted < v
      · simp [goalMetCheck, metPerClaim, numTruthy, hth, htt, hv,
          hvpos.ne', hlt, not_le.mpr hlt]
      · simp [goalMetCheck, metPerClaim, numTruthy, hth, htt, hv,
          hvpos.ne', hlt, not_lt.mp hlt]
  | true =>
    obtain ⟨v, hv, hvpos⟩ := h1 hth
    cases htt : g.trackTasks with
    | false =>
      by_cases hlt : p.hoursCompleted < v
      · simp [goalMetCheck, metPerClaim, numTruthy, hth, htt, hv,
          hvpos.ne', hlt, not_le.mpr hlt]
      · simp [goalMetCheck, metPerClaim, numTruthy, hth, htt, hv,
          hvpos.ne', hlt, not_lt.mp hlt]
    | true =>
      obtain ⟨w, hw, hwpos⟩ := h2 htt
      by_cases hlt : p.hoursCompleted < v
      · by_cases hlt2 : p.tasksCompleted < w
        · simp [goalMetCheck, metPerClaim, numTruthy, hth, htt, hv, hw,
            hvpos.ne', hwpos.ne', hlt, hlt2, not_le.mpr hlt]
        · simp [goalMetCheck, metPerClaim, numTruthy, hth, htt, hv, hw,
            hvpos.ne', hwpos.ne', hlt, hlt2, not_le.mpr hlt,
            not_lt.mp hlt2]
      · by_cases hlt2 : p.tasksCompleted < w
        · simp [goalMetCheck, metPerClaim, numTruthy, hth, htt, hv, hw,
            hvpos.ne', hwpos.ne', hlt, hlt2, not_lt.mp hlt,
            not_le.mpr hlt2]
        · simp [goalMetCheck, metPerClaim, numTruthy, hth, htt, hv, hw,
            hvpos.ne', hwpos.ne', hlt, hlt2, not_lt.mp hlt,
            not_lt.mp hlt2]

/-- Case analysis of one weekly-bonus loop iteration in terms of the
claim-side predicates, valid under the Goal invariant. -/
theorem weeklyBonusStep_char (wp : WeeklyProgress) (st : WeeklyBonusState)
    (g : Goal) (h : goalWF g) :
    weeklyBonusStep wp st g =
      if metEvaluated wp g then
        { st with
          result := { st.result with
            goalBonuses := objSet st.result.goalBonuses g.id WEEKLY_GOAL_BONUS
            total := st.result.total + WEEKLY_GOAL_BONUS }
          anyGoalsMet := true }
      else if unmetEvaluated wp g then
        { st with allGoalsMet := false }
      else st := by
  by_cases ha : g.archived = true
  · have hme : metEvaluated wp g = false := by
      simp [metEvaluated, evaluatedGoal, ha]
    have hue : unmetEvaluated wp g = false := by
      simp [unmetEvaluated, evaluatedGoal, ha]
    rw [if_neg (by simp [hme]), if_neg (by simp [hue])]
    simp [weeklyBonusStep, ha]
  · have ha' : g.archived = false := by simpa using ha
    have hq := goalMetCheck_eq_metPerClaim g
      ((objGet wp.goals g.id).getD ⟨0, 0⟩) h
    by_cases hs : (objGet wp.goals g.id).isSome = true
    · by_cases hm : metPerClaim g ((objGet wp.goals g.id).getD ⟨0, 0⟩) = true
      · have hme : metEvaluated wp g = true := by
          simp [metEvaluated, evaluatedGoal, ha', hs, hm]
        rw [if_pos hme]
        simp [weeklyBonusStep, ha', hs, hq, hm]
      · have hm' : metPerClaim g ((objGet wp.goals g.id).getD ⟨0, 0⟩) = false := by
          simpa using hm
        have hme : metEvaluated wp g = false := by
          simp [metEvaluated, hm']
        have hue : unmetEvaluated wp g = true := by
          simp [unmetEvaluated, evaluatedGoal, ha', hs, hm']
        rw [if_neg (by simp [hme]), if_pos hue]
        simp [weeklyBonusStep, ha', hs, hq, hm']
    · have hs' : (objGet wp.goals g.id).isSome = false := by simpa using hs
      have hme : metEvaluated wp g = false := by
        simp [metEvaluated, evaluatedGoal, hs']
      have hue : unmetEvaluated wp g = false := by
        simp [unmetEvaluated, evaluatedGoal, hs']
      rw [if_neg (by simp [hme]), if_neg (by simp [hue])]
      simp [weeklyBonusStep, ha', hs']

/-- Running-state invariant of the weekly-bonus fold: the total grows by
50 per evaluated met goal, the perfect-week field is untouched, and the
two flags record whether any evaluated goal was unmet or met. -/
theorem weeklyBonus_foldl (wp : WeeklyProgress) (goals : List Goal)
    (st : WeeklyBonusState) (hWF : ∀ g ∈ goals, goalWF g) :
    (goals.foldl (weeklyBonusStep wp) st).result.total =
        st.result.total +
          WEEKLY_GOAL_BONUS * ((goals.filter (metEvaluated wp)).length : ℚ) ∧
    (goals.foldl (weeklyBonusStep wp) st).result.perfectWeekBonus =
        st.result.perfectWeekBonus ∧
    (goals.foldl (weeklyBonusStep wp) st).allGoalsMet =
        (st.allGoalsMet && !(goals.any (unmetEvaluated wp))) ∧
    (goals.foldl (weeklyBonusStep wp) st).anyGoalsMet =
        (st.anyGoalsMet || goals.any (metEvaluated wp)) := by
  induction goals generalizing st with
  | nil => simp
  | cons g gs ih =>
    have hg := hWF g (List.mem_cons_self g gs)
    have hgs : ∀ x ∈ gs, goalWF x := fun x hx =>
      hWF x (List.mem_cons_of_mem g hx)
    simp only [List.foldl_cons]
    rw [weeklyBonusStep_char wp st g hg]
    cases hm : metEvaluated wp g
    · cases hu : unmetEvaluated wp g
      · rw [if_neg Bool.false_ne_true, if_neg Bool.false_ne_true]
        obtain ⟨i1, i2, i3, i4⟩ := ih st hgs
        refine ⟨?_, i2, ?_, ?_⟩
        · rw [i1, List.filter_cons_of_neg (by simp [hm])]
        · rw [i3, List.any_cons, hu, Bool.false_or]
        · rw [i4, List.any_cons, hm, Bool.false_or]
      · rw [if_neg Bool.false_ne_true, if_pos rfl]
        obtain ⟨i1, i2, i3, i4⟩ := ih { st with allGoalsMet := false } hgs
        refine ⟨?_, i2, ?_, ?_⟩
        · rw [i1, List.filter_cons_of_neg (by simp [hm])]
        · rw [i3, List.any_cons, hu]
          simp
        · rw [i4, List.any_cons, hm, Bool.false_or]
    · rw [if_pos rfl]
      have hu : unmetEvaluated wp g = false := by
        simp only [metEvaluated, Bool.and_eq_true] at hm
        simp [unmetEvaluated, hm.1, hm.2]
      obtain ⟨i1, i2, i3, i4⟩ := ih
        { st with
          result := { st.result with
            goalBonuses := objSet st.result.goalBonuses g.id WEEKLY_GOAL_BONUS
            total := st.result.total + WEEKLY_GOAL_BONUS }
          anyGoalsMet := true } hgs
      refine ⟨?_, i2, ?_, ?_⟩
      · rw [i1, List.filter_cons_of_pos (by simp [hm]), List.length_cons]
        dsimp only
        push_cast
        ring
      · rw [i3, List.any_cons, hu]
        simp
      · rw [i4, List.any_cons, hm]
        simp

/-- C6: under the Goal invariant, the weekly bonus totals 50 per
evaluated (non-archived, progress-entry-holding) goal that meets its
targets, plus the perfect-week bonus; the 100-point perfect-week bonus is
granted exactly when some evaluated goal is met and no evaluated goal is
unmet; and a single goal meeting its hour target alone yields 150. -/
theorem weekly_bonus_characterization (wp : WeeklyProgress)
    (goals : List Goal) (hWF : ∀ g ∈ goals, goalWF g) :
    ((calculateWeeklyBonus (some wp) goals).total =
        50 * ((goals.filter (metEvaluated wp)).length : ℚ) +
          (calculateWeeklyBonus (some wp) goals).perfectWeekBonus) ∧
    ((calculateWeeklyBonus (some wp) goals).perfectWeekBonus = 100 ↔
        goals.any (metEvaluated wp) = true ∧
          goals.any (unmetEvaluated wp) = false) ∧
    (calculateWeeklyBonus
        (some { weekStart := 0, weekEnd := 6, goals := [("g1", ⟨10, 0⟩)],
                totalHours := 10, totalTasks := 0 })
        [{ id := "g1", trackHours := true, weeklyHourGoal := some 10,
           trackTasks := false, weeklyTaskGoal := none,
           archived := false }]).total = 150 := by
  have concrete : (calculateWeeklyBonus
      (some { weekStart := 0, weekEnd := 6, goals := [("g1", ⟨10, 0⟩)],
              totalHours := 10, totalTasks := 0 })
      [{ id := "g1", trackHours := true, weeklyHourGoal := some 10,
         trackTasks := false, weeklyTaskGoal := none,
         archived := false }]).total = 150 := by
    norm_num [calculateWeeklyBonus, weeklyBonusStep, goalMetCheck,
      numTruthy, objGet, objSet, WEEKLY_GOAL_BONUS, PERFECT_WEEK_BONUS]
  refine ⟨?_, ?_, concrete⟩ <;>
  · rcases goals with _ | ⟨g0, gs⟩
    · simp [calculateWeeklyBonus]
    · obtain ⟨i1, i2, i3, i4⟩ := weeklyBonus_foldl wp (g0 :: gs)
        { result := { goalBonuses := [], perfectWeekBonus := 0, total := 0 },
          allGoalsMet := true, anyGoalsMet := false } hWF
      have heq : calculateWeeklyBonus (some wp) (g0 :: gs) =
          (if ((g0 :: gs).foldl (weeklyBonusStep wp)
                { result := { goalBonuses := [], perfectWeekBonus := 0,
                              total := 0 },
                  allGoalsMet := true, anyGoalsMet := false }).allGoalsMet
              && ((g0 :: gs).foldl (weeklyBonusStep wp)
                { result := { goalBonuses := [], perfectWeekBonus := 0,
                              total := 0 },
                  allGoalsMet := true, anyGoalsMet := false }).anyGoalsMet
          then
            { ((g0 :: gs).foldl (weeklyBonusStep wp)
                { result := { goalBonuses := [], perfectWeekBonus := 0,
                              total := 0 },
                  allGoalsMet := true, anyGoalsMet := false }).result with
              perfectWeekBonus := PERFECT_WEEK_BONUS
              total := ((g0 :: gs).foldl (weeklyBonusStep wp)
                { result := { goalBonuses := [], perfectWeekBonus := 0,
                              total := 0 },
                  allGoalsMet := true,
                  anyGoalsMet := false }).result.total
                + PERFECT_WEEK_BONUS }
          else ((g0 :: gs).foldl (weeklyBonusStep wp)
            { result := { goalBonuses := [], perfectWeekBonus := 0,
                          total := 0 },
              allGoalsMet := true, anyGoalsMet := false }).result) := by
        simp only [calculateWeeklyBonus]
        rw [if_neg (by simp)]
      rw [heq]
      by_cases hc : (((g0 :: gs).foldl (weeklyBonusStep wp)
          { result := { goalBonuses := [], perfectWeekBonus := 0,
                        total := 0 },
            allGoalsMet := true, anyGoalsMet := false }).allGoalsMet
          && ((g0 :: gs).foldl (weeklyBonusStep wp)
          { result := { goalBonuses := [], perfectWeekBonus := 0,
                        total := 0 },
            allGoalsMet := true, anyGoalsMet := false }).anyGoalsMet) = true
      · rw [if_pos hc]
        rw [i3, i4] at hc
        simp only [Bool.true_and, Bool.false_or, Bool.and_eq_true] at hc
        first
          | (show _ = _
             dsimp only
             rw [i1, WEEKLY_GOAL_BONUS, PERFECT_WEEK_BONUS]
             push_cast
             ring)
          | (constructor
             · intro _
               exact ⟨hc.2, by simpa using hc.1⟩
             · intro _
               rfl)
      · rw [if_neg hc]
        rw [i3, i4] at hc
        first
          | (rw [i1, i2, WEEKLY_GOAL_BONUS]
             push_cast
             ring)
          | (rw [i2]
             constructor
             · intro h100
               exact absurd h100 (by norm_num)
             · rintro ⟨hmet, hunmet⟩
               exact absurd (by simp [hmet, hunmet]) hc)

/-- Witness for `weekly_bonus_characterization` at the single met
hour-goal instance. -/
theorem weekly_bonus_characterization_witness :
    (∀ g ∈ [Goal.mk "g1" true (some 10) false none false], goalWF g) ∧
    (((calculateWeeklyBonus
        (some (WeeklyProgress.mk 0 6 [("g1", GoalProgress.mk 10 0)] 10 0))
        [Goal.mk "g1" true (some 10) false none false]).total =
        50 * (([Goal.mk "g1" true (some 10) false none false].filter
          (metEvaluated
            (WeeklyProgress.mk 0 6 [("g1", GoalProgress.mk 10 0)] 10 0))).length : ℚ) +
          (calculateWeeklyBonus
            (some (WeeklyProgress.mk 0 6 [("g1", GoalProgress.mk 10 0)] 10 0))
            [Goal.mk "g1" true (some 10) false none false]).perfectWeekBonus) ∧
      ((calculateWeeklyBonus
          (some (WeeklyProgress.mk 0 6 [("g1", GoalProgress.mk 10 0)] 10 0))
          [Goal.mk "g1" true (some 10) false none false]).perfectWeekBonus = 100 ↔
        [Goal.mk "g1" true (some 10) false none false].any
            (metEvaluated
              (WeeklyProgress.mk 0 6 [("g1", GoalProgress.mk 10 0)] 10 0)) = true ∧
          [Goal.mk "g1" true (some 10) false none false].any
            (unmetEvaluated
              (WeeklyProgress.mk 0 6 [("g1", GoalProgress.mk 10 0)] 10 0)) = false) ∧
      (calculateWeeklyBonus
        (some { weekStart := 0, weekEnd := 6, goals := [("g1", ⟨10, 0⟩)],
                totalHours := 10, totalTasks := 0 })
        [{ id := "g1", trackHours := true, weeklyHourGoal := some 10,
           trackTasks := false, weeklyTaskGoal := none,
           archived := false }]).total = 150) :=
  ⟨by
      intro g hg
      simp only [List.mem_singleton] at hg
      subst hg
      exact ⟨fun _ => ⟨10, rfl, by norm_num⟩, fun h => by cases h⟩,
    weekly_bonus_characterization
      (WeeklyProgress.mk 0 6 [("g1", GoalProgress.mk 10 0)] 10 0)
      [Goal.mk "g1" true (some 10) false none false]
      (by
        intro g hg
        simp only [List.mem_singleton] at hg
        subst hg
        exact ⟨fun _ => ⟨10, rfl, by norm_num⟩, fun h => by cases h⟩)⟩

end Mocha
